import Mathlib

/-!
# Verification of the Netflix dashboard data pipeline

Shallow embedding of the two Streamlit dashboard scripts
(`netflix_max_chartier_dashboard.py` and `netflix_story_dashboard.py`).
Dataframes are lists of records; numeric cells are rationals (`ℚ`), nullable
cells are `Option ℚ`; pandas groupby/aggregate/merge operations are embedded
as list operations that keep the relational semantics of the source
(groups keyed by the distinct values present, left joins by per-row match
lists, NaN group keys dropped).
-/

/-- A raw CSV cell of a numeric column before coercion: either empty
(missing) or some textual content. -/
inductive RawCell where
  | missing : RawCell
  | val : String → RawCell
deriving DecidableEq

/-- Numeric value of a decimal digit character, `none` on a non-digit. -/
def digitVal (c : Char) : Option ℕ :=
  if c.isDigit then some (c.toNat - 48) else none

/-- Parse a nonempty string of decimal digits as a natural number. -/
def parseDigits : List Char → Option ℕ
  | [] => none
  | cs => cs.foldl (fun acc c => acc.bind (fun a => (digitVal c).map (fun d => a * 10 + d))) (some 0)

/-- Parse an optionally signed decimal literal (integer part, optional dot,
fractional part; at least one digit overall) as a rational.  This models the
numeric grammar accepted by the pandas lenient numeric coercion on the data
at hand; any other string is non-parseable and yields `none`. -/
def parseRat (s : String) : Option ℚ :=
  let cs := s.toList
  let signAndRest : Bool × List Char :=
    match cs with
    | '-' :: t => (true, t)
    | '+' :: t => (false, t)
    | t => (false, t)
  let neg := signAndRest.1
  let body := signAndRest.2
  match body.splitOn '.' with
  | [w] =>
      (parseDigits w).map (fun n => if neg then -(n : ℚ) else (n : ℚ))
  | [w, f] =>
      if w = [] ∧ f = [] then none
      else if w.all Char.isDigit ∧ f.all Char.isDigit then
        let intPart : ℚ := ((parseDigits w).getD 0 : ℕ)
        let fracPart : ℚ := ((parseDigits f).getD 0 : ℕ) / ((10 : ℚ) ^ f.length)
        let mag := intPart + fracPart
        some (if neg then -mag else mag)
      else none
  | _ => none

/-- Embedding of the lenient numeric coercion applied on load
(errors coerce to missing): a missing cell stays missing, a textual cell is
parsed, with a parse failure becoming missing. -/
def to_numeric_coerce : RawCell → Option ℚ
  | RawCell.missing => none
  | RawCell.val s => parseRat s

/-- A row of `users.csv` after loading: `monthly_spend` and `age` are
leniently coerced and may stay missing; the other fields follow the schema
of the data model (plan tier, active flag, country, device, household
size, creation dates kept as text). -/
structure UserRow where
  user_id : String
  subscription_plan : String
  monthly_spend : Option ℚ
  is_active : Bool
  country : String
  primary_device : String
  household_size : Option ℚ
  age : Option ℚ
  created_at : String
  subscription_start_date : String
deriving DecidableEq

/-- A row of `watch_history.csv` after loading: `watch_duration_minutes` is
coerced then filled with zero, `progress_percentage` is coerced and may stay
missing, `user_rating` is optional. -/
structure WatchRow where
  user_id : String
  movie_id : String
  watch_date : String
  watch_duration_minutes : ℚ
  progress_percentage : Option ℚ
  device_type : String
  user_rating : Option ℚ
deriving DecidableEq

/-- A row of `movies.csv` (loaded verbatim). -/
structure MovieRow where
  movie_id : String
  genre_primary : String
  content_type : String
deriving DecidableEq

/-- A row of `recommendation_logs.csv` (no numeric coercion is applied to
this table on load). -/
structure RecRow where
  recommendation_id : String
  algorithm_version : String
  recommendation_type : String
  was_clicked : Bool
  recommendation_date : String
deriving DecidableEq

/-- A raw row of `users.csv` before the numeric coercions of `load_data`. -/
structure RawUserRow where
  user_id : String
  subscription_plan : String
  monthly_spend : RawCell
  is_active : Bool
  country : String
  primary_device : String
  household_size : Option ℚ
  age : RawCell
  created_at : String
  subscription_start_date : String
deriving DecidableEq

/-- A raw row of `watch_history.csv` before the numeric coercions of
`load_data`. -/
structure RawWatchRow where
  user_id : String
  movie_id : String
  watch_date : String
  watch_duration_minutes : RawCell
  progress_percentage : RawCell
  device_type : String
  user_rating : Option ℚ
deriving DecidableEq

/-- Per-row part of `load_data` on `users.csv`: coerce `monthly_spend` and
`age` leniently, keeping failures as missing. -/
def load_user_row (r : RawUserRow) : UserRow :=
  { user_id := r.user_id
    subscription_plan := r.subscription_plan
    monthly_spend := to_numeric_coerce r.monthly_spend
    is_active := r.is_active
    country := r.country
    primary_device := r.primary_device
    household_size := r.household_size
    age := to_numeric_coerce r.age
    created_at := r.created_at
    subscription_start_date := r.subscription_start_date }

/-- Per-row part of `load_data` on `watch_history.csv`: coerce
`watch_duration_minutes` leniently then fill missing with zero, coerce
`progress_percentage` leniently keeping failures missing. -/
def load_watch_row (r : RawWatchRow) : WatchRow :=
  { user_id := r.user_id
    movie_id := r.movie_id
    watch_date := r.watch_date
    watch_duration_minutes := (to_numeric_coerce r.watch_duration_minutes).getD 0
    progress_percentage := to_numeric_coerce r.progress_percentage
    device_type := r.device_type
    user_rating := r.user_rating }

/-- The raw contents of the four CSV files. -/
structure RawData where
  users : List RawUserRow
  watch : List RawWatchRow
  movies : List MovieRow
  recs : List RecRow
deriving DecidableEq

/-- The four loaded tables returned by `load_data`. -/
structure Tables where
  users : List UserRow
  watch : List WatchRow
  movies : List MovieRow
  recs : List RecRow
deriving DecidableEq

/-- Embedding of `load_data`: read the four tables and apply the per-column
numeric coercions (`movies.csv` and `recommendation_logs.csv` are not
numerically coerced). -/
def load_data (d : RawData) : Tables :=
  { users := d.users.map load_user_row
    watch := d.watch.map load_watch_row
    movies := d.movies
    recs := d.recs }

/-- Pandas linear-interpolation quantile of a list of values (the default
interpolation of `Series.quantile`): sort the values, take position
`q * (n - 1)`, and interpolate linearly between the neighbouring order
statistics.  Junk value `0` on the empty list (pandas would return NaN;
every use below is on a nonempty group). -/
def quantile (q : ℚ) (xs : List ℚ) : ℚ :=
  let s := List.insertionSort (· ≤ ·) xs
  if s.length = 0 then 0
  else
    let h : ℚ := q * ((s.length : ℚ) - 1)
    let i : ℕ := h.floor.toNat
    let lo := s.getD i 0
    lo + (h - (h.floor : ℚ)) * (s.getD (i + 1) 0 - lo)

/-- The session view `sess`: the `device_type` and `watch_duration_minutes`
columns of the watch table (`dropna` removes nothing since both columns are
non-nullable after load). -/
def sess_of (watch : List WatchRow) : List (String × ℚ) :=
  watch.map (fun r => (r.device_type, r.watch_duration_minutes))

/-- Lower IQR fence `Q1 - 1.5 * IQR` of the duration values of a group. -/
def iqr_lower (g : List (String × ℚ)) : ℚ :=
  let q1 := quantile (1 / 4) (g.map Prod.snd)
  let q3 := quantile (3 / 4) (g.map Prod.snd)
  q1 - 3 / 2 * (q3 - q1)

/-- Upper IQR fence `Q3 + 1.5 * IQR` of the duration values of a group. -/
def iqr_upper (g : List (String × ℚ)) : ℚ :=
  let q1 := quantile (1 / 4) (g.map Prod.snd)
  let q3 := quantile (3 / 4) (g.map Prod.snd)
  q3 + 3 / 2 * (q3 - q1)

/-- Embedding of the body of the `_iqr_filter` helper: keep the rows of the
group whose duration lies inside the closed fence
`[Q1 - 1.5 * IQR, Q3 + 1.5 * IQR]` computed from this group. -/
def iqr_filter (g : List (String × ℚ)) : List (String × ℚ) :=
  g.filter (fun p => iqr_lower g ≤ p.2 ∧ p.2 ≤ iqr_upper g)

/-- The rows of `s` whose device type is `d` (one pandas group). -/
def device_group (s : List (String × ℚ)) (d : String) : List (String × ℚ) :=
  s.filter (fun p => p.1 = d)

/-- Embedding of `sess.groupby("device_type", group_keys=False).apply(_iqr_filter)`:
apply `iqr_filter` to each device group and concatenate the results (the
order of groups does not matter for any property below). -/
def iqr_filter_grouped (s : List (String × ℚ)) : List (String × ℚ) :=
  ((s.map Prod.fst).dedup).flatMap (fun d => iqr_filter (device_group s d))

/-- Helper: membership in a device group means membership in the session
list with the matching device type. -/
theorem mem_device_group {s : List (String × ℚ)} {d : String} {p : String × ℚ} :
    p ∈ device_group s d ↔ p ∈ s ∧ p.1 = d := by
  simp [device_group, List.mem_filter]

/-- C1: the per-group IQR trim retains a session row if and only if its
duration lies within the closed fence computed from the quartiles of its
own device group; it never removes a value inside the fence and removes
every value outside it. -/
theorem iqr_filter_grouped_mem_iff (s : List (String × ℚ)) (p : String × ℚ) (hp : p ∈ s) :
    p ∈ iqr_filter_grouped s ↔
      (iqr_lower (device_group s p.1) ≤ p.2 ∧ p.2 ≤ iqr_upper (device_group s p.1)) := by
  constructor
  · intro h
    rcases List.mem_flatMap.mp h with ⟨d, _, hpd⟩
    have h1 : p ∈ device_group s d ∧
        (iqr_lower (device_group s d) ≤ p.2 ∧ p.2 ≤ iqr_upper (device_group s d)) := by
      simpa [iqr_filter, List.mem_filter] using hpd
    have h2 : p.1 = d := (mem_device_group.mp h1.1).2
    rw [h2]
    exact h1.2
  · intro h
    apply List.mem_flatMap.mpr
    refine ⟨p.1, List.mem_dedup.mpr (List.mem_map_of_mem _ hp), ?_⟩
    simp only [iqr_filter, List.mem_filter, decide_eq_true_eq]
    exact ⟨mem_device_group.mpr ⟨hp, rfl⟩, h.1, h.2⟩

unseal Rat.add Rat.sub Rat.mul Rat.inv in
/-- Witness for C1: on a concrete session list, the characterization is
applied at the row `("TV", 20)`, which lies inside its group fence and is
indeed retained. -/
theorem iqr_filter_grouped_mem_iff_witness :
    ("TV", (20 : ℚ)) ∈
      iqr_filter_grouped [("TV", 10), ("TV", 20), ("TV", 30), ("Mobile", 5)] :=
  (iqr_filter_grouped_mem_iff [("TV", 10), ("TV", 20), ("TV", 30), ("Mobile", 5)]
    ("TV", 20) (by decide)).mpr (by decide)

/-- Python `str()` of a boolean, as produced by `was_clicked.astype(str)`. -/
def py_str_bool (b : Bool) : String := if b then "True" else "False"

/-- The subscription plans present in the users table (the groupby keys). -/
def plans_of (users : List UserRow) : List String :=
  (users.map (fun u => u.subscription_plan)).dedup

/-- Count of users of plan `p` whose active flag counts as `True` in the
unstacked `value_counts` of `is_active` within the plan group. -/
def retention_true (users : List UserRow) (p : String) : ℕ :=
  (users.filter (fun u => u.subscription_plan = p ∧ u.is_active = true)).length

/-- Count of users of plan `p` whose active flag counts as `False` in the
unstacked `value_counts` of `is_active` within the plan group. -/
def retention_false (users : List UserRow) (p : String) : ℕ :=
  (users.filter (fun u => u.subscription_plan = p ∧ u.is_active = false)).length

/-- Embedding of the per-plan retention rate
`x.get(True,0) / (x.get(True,0) + x.get(False,0))`. -/
def retention_rate (users : List UserRow) (p : String) : ℚ :=
  (retention_true users p : ℚ) / ((retention_true users p : ℚ) + (retention_false users p : ℚ))

/-- Number of users of plan `p` in the users table. -/
def plan_size (users : List UserRow) (p : String) : ℕ :=
  (users.filter (fun u => u.subscription_plan = p)).length

/-- Helper: splitting a filtered list by a boolean flag splits its length. -/
theorem length_filter_bool_split {α : Type} (l : List α) (p b : α → Bool) :
    (l.filter (fun a => p a && b a)).length + (l.filter (fun a => p a && !b a)).length
      = (l.filter p).length := by
  induction l with
  | nil => rfl
  | cons x t ih =>
    rw [List.filter_cons, List.filter_cons, List.filter_cons]
    cases hp : p x <;> cases hb : b x <;> simp [hp, hb] <;> omega

/-- Helper: within a plan group the `True` and `False` counts of the active
flag add up to the group size. -/
theorem retention_split (users : List UserRow) (p : String) :
    retention_true users p + retention_false users p = plan_size users p := by
  unfold retention_true retention_false plan_size
  have h1 : ∀ u : UserRow,
      decide (u.subscription_plan = p ∧ u.is_active = true)
        = (decide (u.subscription_plan = p) && u.is_active) := by
    intro u; cases h : u.is_active <;> simp [h]
  have h2 : ∀ u : UserRow,
      decide (u.subscription_plan = p ∧ u.is_active = false)
        = (decide (u.subscription_plan = p) && !u.is_active) := by
    intro u; cases h : u.is_active <;> simp [h]
  rw [List.filter_congr (fun u _ => h1 u), List.filter_congr (fun u _ => h2 u)]
  exact length_filter_bool_split users _ _

/-- C3: for every plan present in the users table, the reported retention
rate equals the number of active users of the plan divided by the total
number of users of the plan. -/
theorem retention_rate_by_plan (users : List UserRow) (p : String)
    (h : ∃ u ∈ users, u.subscription_plan = p) :
    retention_rate users p = (retention_true users p : ℚ) / (plan_size users p : ℚ) := by
  unfold retention_rate
  rw [← retention_split users p]
  push_cast
  rfl

/-- A sample active Basic-plan user, used by concrete witnesses. -/
def u_active : UserRow :=
  { user_id := "u1", subscription_plan := "Basic", monthly_spend := some 4,
    is_active := true, country := "US", primary_device := "TV",
    household_size := some 2, age := some 30, created_at := "2024-01-01",
    subscription_start_date := "2024-01-02" }

/-- A sample churned Basic-plan user, used by concrete witnesses. -/
def u_churned : UserRow :=
  { user_id := "u2", subscription_plan := "Basic", monthly_spend := some 4,
    is_active := false, country := "CA", primary_device := "Mobile",
    household_size := some 1, age := some 40, created_at := "2024-01-03",
    subscription_start_date := "2024-01-04" }

/-- A sample watch-history row, used by concrete witnesses. -/
def w_sample : WatchRow :=
  { user_id := "u1", movie_id := "m1", watch_date := "2024-02-01",
    watch_duration_minutes := 30, progress_percentage := some 50,
    device_type := "TV", user_rating := some 4 }

/-- A sample movie row, used by concrete witnesses. -/
def m_sample : MovieRow :=
  { movie_id := "m1", genre_primary := "Adventure", content_type := "Movie" }

/-- A sample clicked recommendation-log row, used by concrete witnesses. -/
def r_click : RecRow :=
  { recommendation_id := "r1", algorithm_version := "v1",
    recommendation_type := "new_release", was_clicked := true,
    recommendation_date := "2024-03-01" }

/-- A sample unclicked recommendation-log row, used by concrete witnesses. -/
def r_skip : RecRow :=
  { recommendation_id := "r2", algorithm_version := "v1",
    recommendation_type := "new_release", was_clicked := false,
    recommendation_date := "2024-03-02" }

/-- Witness for C3: the retention identity applied to a concrete users
table with one active and one churned Basic user. -/
theorem retention_rate_by_plan_witness :
    retention_rate [u_active, u_churned] "Basic"
      = (retention_true [u_active, u_churned] "Basic" : ℚ)
        / (plan_size [u_active, u_churned] "Basic" : ℚ) :=
  retention_rate_by_plan [u_active, u_churned] "Basic"
    ⟨u_active, List.mem_cons_self _ _, rfl⟩

/-- Embedding of the CTR by algorithm version
(`(x == "True").sum() / len(x)` over each version group, after
`was_clicked.astype(str)`). -/
def ctr_by_algo (recs : List RecRow) (v : String) : ℚ :=
  (((recs.filter (fun r => r.algorithm_version = v)).filter
      (fun r => py_str_bool r.was_clicked = "True")).length : ℚ)
    / ((recs.filter (fun r => r.algorithm_version = v)).length : ℚ)

/-- Impressions of a recommendation-type group: the count of the (non-null)
`recommendation_id` column over the group. -/
def impressions_by_type (recs : List RecRow) (t : String) : ℕ :=
  (recs.filter (fun r => r.recommendation_type = t)).length

/-- Clicks of a recommendation-type group: `(x == "True").sum()` after
`was_clicked.astype(str)`. -/
def clicks_by_type (recs : List RecRow) (t : String) : ℕ :=
  ((recs.filter (fun r => r.recommendation_type = t)).filter
    (fun r => py_str_bool r.was_clicked = "True")).length

/-- Embedding of `rec_summary["ctr"] = clicks / impressions`. -/
def ctr_by_type (recs : List RecRow) (t : String) : ℚ :=
  (clicks_by_type recs t : ℚ) / (impressions_by_type recs t : ℚ)

/-- Helper: the string round-trip of the clicked flag recognises exactly the
clicked records. -/
theorem py_str_bool_decide (r : RecRow) :
    decide (py_str_bool r.was_clicked = "True") = decide (r.was_clicked = true) := by
  cases hb : r.was_clicked <;> simp [py_str_bool, hb]

/-- C4: for every algorithm version and recommendation type with at least
one record, the reported click-through rate equals the number of clicked
records in the group divided by the number of records of the group. -/
theorem ctr_eq_clicks_div_impressions (recs : List RecRow) (v t : String)
    (hv : ∃ r ∈ recs, r.algorithm_version = v)
    (ht : ∃ r ∈ recs, r.recommendation_type = t) :
    ctr_by_algo recs v
      = ((recs.filter (fun r => r.algorithm_version = v ∧ r.was_clicked = true)).length : ℚ)
        / ((recs.filter (fun r => r.algorithm_version = v)).length : ℚ)
    ∧ ctr_by_type recs t
      = ((recs.filter (fun r => r.recommendation_type = t ∧ r.was_clicked = true)).length : ℚ)
        / ((recs.filter (fun r => r.recommendation_type = t)).length : ℚ) := by
  have halgo : ((recs.filter (fun r => r.algorithm_version = v)).filter
      (fun r => py_str_bool r.was_clicked = "True")).length
        = (recs.filter (fun r => r.algorithm_version = v ∧ r.was_clicked = true)).length := by
    rw [List.filter_filter]
    refine congrArg List.length (List.filter_congr ?_)
    intro r _
    cases hb : r.was_clicked <;> simp [py_str_bool, hb]
  have htype : clicks_by_type recs t
      = (recs.filter (fun r => r.recommendation_type = t ∧ r.was_clicked = true)).length := by
    unfold clicks_by_type
    rw [List.filter_filter]
    refine congrArg List.length (List.filter_congr ?_)
    intro r _
    cases hb : r.was_clicked <;> simp [py_str_bool, hb]
  constructor
  · unfold ctr_by_algo
    rw [halgo]
  · unfold ctr_by_type impressions_by_type
    rw [htype]

/-- Witness for C4: the CTR identities applied to a concrete log with one
clicked and one skipped record of the same version and type. -/
theorem ctr_eq_clicks_div_impressions_witness :
    ctr_by_algo [r_click, r_skip] "v1"
      = (([r_click, r_skip].filter
          (fun r => r.algorithm_version = "v1" ∧ r.was_clicked = true)).length : ℚ)
        / (([r_click, r_skip].filter (fun r => r.algorithm_version = "v1")).length : ℚ)
    ∧ ctr_by_type [r_click, r_skip] "new_release"
      = (([r_click, r_skip].filter
          (fun r => r.recommendation_type = "new_release" ∧ r.was_clicked = true)).length : ℚ)
        / (([r_click, r_skip].filter
          (fun r => r.recommendation_type = "new_release")).length : ℚ) :=
  ctr_eq_clicks_div_impressions [r_click, r_skip] "v1" "new_release"
    ⟨r_click, List.mem_cons_self _ _, rfl⟩ ⟨r_click, List.mem_cons_self _ _, rfl⟩

/-- Helper: a sum of indicator terms over a duplicate-free key list that
contains the hit key collapses to the single hit. -/
theorem sum_map_ite_single {K : Type} [DecidableEq K] (ks : List K) (a : K) (c : ℚ)
    (hnd : ks.Nodup) (ha : a ∈ ks) :
    (ks.map (fun k => if a = k then c else 0)).sum = c := by
  induction ks with
  | nil => simp at ha
  | cons k t ih =>
    rcases List.nodup_cons.mp hnd with ⟨hk, ht⟩
    rcases List.mem_cons.mp ha with h | h
    · subst h
      simp only [List.map_cons, List.sum_cons]
      have hz : ∀ x ∈ t.map (fun k2 => if a = k2 then c else 0), x = 0 := by
        intro x hx
        rcases List.mem_map.mp hx with ⟨k2, hk2, rfl⟩
        have hne : a ≠ k2 := fun he => hk (by rw [he]; exact hk2)
        exact if_neg hne
      rw [if_pos trivial, List.sum_eq_zero hz, add_zero]
    · have hne : a ≠ k := fun he => hk (he ▸ h)
      simp only [List.map_cons, List.sum_cons, if_neg hne, zero_add]
      exact ih ht h

/-- Helper (the re-aggregation law): summing, over a duplicate-free list of
keys covering every row, the per-key sums of a value column equals the
ungrouped sum of the column. -/
theorem sum_grouped_eq_total {α K : Type} [DecidableEq K]
    (ks : List K) (l : List α) (key : α → K) (val : α → ℚ)
    (hnd : ks.Nodup) (hcov : ∀ a ∈ l, key a ∈ ks) :
    (ks.map (fun k => ((l.filter (fun a => key a = k)).map val).sum)).sum
      = (l.map val).sum := by
  induction l with
  | nil => simp
  | cons x t ih =>
    have hx := hcov x (List.mem_cons_self x t)
    have hcov2 : ∀ a ∈ t, key a ∈ ks := fun a ha => hcov a (List.mem_cons_of_mem _ ha)
    have hterm : ∀ k, (((x :: t).filter (fun a => key a = k)).map val).sum
        = (if key x = k then val x else 0) + ((t.filter (fun a => key a = k)).map val).sum := by
      intro k
      rw [List.filter_cons]
      by_cases hk : key x = k
      · simp [hk]
      · simp [hk]
    rw [List.map_congr_left (fun k _ => hterm k), List.sum_map_add,
      sum_map_ite_single ks (key x) (val x) hnd hx, ih hcov2]
    simp

/-- The device types present in the watch table (groupby keys of the
"Engagement by Device Type" section). -/
def device_keys (watch : List WatchRow) : List String :=
  (watch.map (fun r => r.device_type)).dedup

/-- Per-device total of `watch_duration_minutes` (line of
`watch.groupby("device_type")["watch_duration_minutes"].sum()`). -/
def device_watch_sum (watch : List WatchRow) (d : String) : ℚ :=
  ((watch.filter (fun r => r.device_type = d)).map
    (fun r => r.watch_duration_minutes)).sum

/-- The ungrouped total of `watch_duration_minutes` over the watch table. -/
def total_watch_minutes (watch : List WatchRow) : ℚ :=
  (watch.map (fun r => r.watch_duration_minutes)).sum

/-- The total-watch-hours KPI `watch["watch_duration_minutes"].sum() / 60.0`. -/
def total_watch_hours (watch : List WatchRow) : ℚ :=
  total_watch_minutes watch / 60

/-- Embedding of the left join
`watch.merge(movies[["movie_id","genre_primary"]], on="movie_id", how="left")`,
keeping only the joined genre key and the duration: each watch row is
replicated once per matching movie row, and an unmatched row gets a missing
genre (pandas NaN). -/
def watch_genre_rows (watch : List WatchRow) (movies : List MovieRow) :
    List (Option String × ℚ) :=
  watch.flatMap (fun w =>
    if (movies.filter (fun m => m.movie_id = w.movie_id)).isEmpty then
      [((none : Option String), w.watch_duration_minutes)]
    else (movies.filter (fun m => m.movie_id = w.movie_id)).map
      (fun m => (some m.genre_primary, w.watch_duration_minutes)))

/-- The genre groupby keys: the distinct joined genres, with the missing
key dropped (pandas groupby drops NaN keys). -/
def genre_keys (watch : List WatchRow) (movies : List MovieRow) : List String :=
  (((watch_genre_rows watch movies).map Prod.fst).dedup).filterMap id

/-- Per-genre total of `watch_duration_minutes` after the join (the
"Engagement by Genre" section). -/
def genre_watch_sum (watch : List WatchRow) (movies : List MovieRow) (g : String) : ℚ :=
  (((watch_genre_rows watch movies).filter (fun p => p.1 = some g)).map Prod.snd).sum

/-- Helper: mapping a function of the underlying value over the
missing-free part of a key list agrees with mapping over the whole list
when every key is present. -/
theorem map_filterMap_id_of_all_some {K β : Type} (ks : List (Option K))
    (F : Option K → β) (h : ∀ k ∈ ks, ∃ g, k = some g) :
    (ks.filterMap id).map (fun g => F (some g)) = ks.map F := by
  induction ks with
  | nil => rfl
  | cons k t ih =>
    rcases h k (List.mem_cons_self k t) with ⟨g, rfl⟩
    have ht : ∀ x ∈ t, ∃ g2, x = some g2 := fun x hx => h x (List.mem_cons_of_mem _ hx)
    simp only [List.filterMap_cons, id, List.map_cons]
    rw [ih ht]

/-- Helper: under referential integrity with unique movie ids, every watch
row joins to exactly one movie row, so the joined rows carry the same
duration multiset as the watch table; in particular the joined durations
sum to the ungrouped total. -/
theorem watch_genre_rows_sum (watch : List WatchRow) (movies : List MovieRow)
    (hfk : ∀ w ∈ watch, (movies.filter (fun m => m.movie_id = w.movie_id)).length = 1) :
    ((watch_genre_rows watch movies).map Prod.snd).sum = total_watch_minutes watch := by
  induction watch with
  | nil => rfl
  | cons w t ih =>
    have hw := hfk w (List.mem_cons_self w t)
    have ht : ∀ x ∈ t, (movies.filter (fun m => m.movie_id = x.movie_id)).length = 1 :=
      fun x hx => hfk x (List.mem_cons_of_mem _ hx)
    rcases List.length_eq_one.mp hw with ⟨m, hm⟩
    unfold watch_genre_rows total_watch_minutes at ih ⊢
    rw [List.flatMap_cons, List.map_append, List.sum_append, ih ht]
    simp [hm]

/-- Helper: under referential integrity with unique movie ids, every joined
row carries a present (non-missing) genre key. -/
theorem watch_genre_rows_fst_some (watch : List WatchRow) (movies : List MovieRow)
    (hfk : ∀ w ∈ watch, (movies.filter (fun m => m.movie_id = w.movie_id)).length = 1) :
    ∀ p ∈ watch_genre_rows watch movies, ∃ g, p.1 = some g := by
  intro p hp
  rcases List.mem_flatMap.mp hp with ⟨w, hw, hpw⟩
  rcases List.length_eq_one.mp (hfk w hw) with ⟨m, hm⟩
  rw [hm] at hpw
  simp only [List.isEmpty_cons, if_neg, Bool.false_eq_true, not_false_eq_true,
    List.map_cons, List.map_nil] at hpw
  rcases List.mem_singleton.mp hpw with rfl
  exact ⟨m.genre_primary, rfl⟩

/-- C6: re-aggregating the grouped sums recovers the ungrouped total, for
the grouping of the watch table by device type and, under referential
integrity of `movie_id` (each watch row references exactly one movie row),
for the grouping by primary genre after the left join with the movies
table. -/
theorem grouped_sums_recover_total (watch : List WatchRow) (movies : List MovieRow)
    (hfk : ∀ w ∈ watch, (movies.filter (fun m => m.movie_id = w.movie_id)).length = 1) :
    ((device_keys watch).map (device_watch_sum watch)).sum = total_watch_minutes watch
    ∧ ((genre_keys watch movies).map (genre_watch_sum watch movies)).sum
        = total_watch_minutes watch := by
  constructor
  · unfold device_keys device_watch_sum total_watch_minutes
    exact sum_grouped_eq_total _ watch (fun r => r.device_type)
      (fun r => r.watch_duration_minutes) (List.nodup_dedup _)
      (fun a ha => List.mem_dedup.mpr (List.mem_map_of_mem _ ha))
  · have hsome := watch_genre_rows_fst_some watch movies hfk
    have hkeys : ∀ k ∈ ((watch_genre_rows watch movies).map Prod.fst).dedup,
        ∃ g, k = some g := by
      intro k hk
      rcases List.mem_map.mp (List.mem_dedup.mp hk) with ⟨p, hp, rfl⟩
      exact hsome p hp
    unfold genre_keys genre_watch_sum
    rw [map_filterMap_id_of_all_some _
      (fun k => (((watch_genre_rows watch movies).filter (fun p => p.1 = k)).map Prod.snd).sum)
      hkeys]
    rw [sum_grouped_eq_total _ (watch_genre_rows watch movies) Prod.fst Prod.snd
      (List.nodup_dedup _) (fun a ha => List.mem_dedup.mpr (List.mem_map_of_mem _ ha))]
    exact watch_genre_rows_sum watch movies hfk

/-- Witness for C6: the re-aggregation identity applied to a concrete
watch table of two rows over one movie. -/
theorem grouped_sums_recover_total_witness :
    ((device_keys [w_sample]).map (device_watch_sum [w_sample])).sum
      = total_watch_minutes [w_sample]
    ∧ ((genre_keys [w_sample] [m_sample]).map (genre_watch_sum [w_sample] [m_sample])).sum
      = total_watch_minutes [w_sample] :=
  grouped_sums_recover_total [w_sample] [m_sample]
    (by intro w hw; rcases List.mem_singleton.mp hw with rfl; rfl)

/-- Embedding of `watch.groupby("user_id")["watch_duration_minutes"].sum()`:
one row per distinct user id with the summed durations. -/
def watch_user_totals (watch : List WatchRow) : List (String × ℚ) :=
  ((watch.map (fun r => r.user_id)).dedup).map
    (fun k => (k, ((watch.filter (fun r => r.user_id = k)).map
      (fun r => r.watch_duration_minutes)).sum))

/-- The left-join output rows contributed by one user row
(`users.merge(watch_user, on="user_id", how="left")`): one row per matching
per-user total, or a single row with a missing total when there is no
match. -/
def merge_row (wu : List (String × ℚ)) (u : UserRow) : List (UserRow × Option ℚ) :=
  if (wu.filter (fun p => p.1 = u.user_id)).isEmpty then [(u, none)]
  else (wu.filter (fun p => p.1 = u.user_id)).map (fun p => (u, some p.2))

/-- Embedding of the left join of the users table with the per-user watch
totals. -/
def merge_left_totals (users : List UserRow) (wu : List (String × ℚ)) :
    List (UserRow × Option ℚ) :=
  users.flatMap (merge_row wu)

/-- Embedding of `.fillna({"total_watch_mins": 0})` after the left join. -/
def fill_total_zero (l : List (UserRow × Option ℚ)) : List (UserRow × ℚ) :=
  l.map (fun p => (p.1, p.2.getD 0))

/-- The engagement table `users_plan` / `user_engagement`: users left-joined
with their total watch minutes, missing totals filled with zero. -/
def user_engagement (users : List UserRow) (watch : List WatchRow) :
    List (UserRow × ℚ) :=
  fill_total_zero (merge_left_totals users (watch_user_totals watch))

/-- The total watch minutes of one user over the watch table. -/
def total_watch_minutes_of (watch : List WatchRow) (uid : String) : ℚ :=
  ((watch.filter (fun r => r.user_id = uid)).map (fun r => r.watch_duration_minutes)).sum

/-- Helper: filtering a keyed map built over a duplicate-free key list by
one key yields the single matching entry, or nothing. -/
theorem filter_keyed_map {K β : Type} [DecidableEq K] (ks : List K) (f : K → β) (a : K)
    (hnd : ks.Nodup) :
    ((ks.map (fun k => (k, f k))).filter (fun p => p.1 = a))
      = if a ∈ ks then [(a, f a)] else [] := by
  induction ks with
  | nil => simp
  | cons k t ih =>
    rcases List.nodup_cons.mp hnd with ⟨hk, ht⟩
    rw [List.map_cons, List.filter_cons]
    by_cases hka : k = a
    · subst hka
      have htl : (t.map (fun k2 => (k2, f k2))).filter (fun p => p.1 = k) = [] := by
        rw [ih ht, if_neg hk]
      simp [htl]
    · rw [if_neg (by simp [hka]), ih ht]
      by_cases hat : a ∈ t
      · rw [if_pos hat, if_pos (List.mem_cons_of_mem _ hat)]
      · rw [if_neg hat, if_neg (by
          simp only [List.mem_cons, hat, or_false]
          exact fun h => hka h.symm)]

/-- Helper: after filling missing totals with zero, the left-join rows
contributed by one user are exactly one row carrying the user's total watch
minutes (zero when the user has no watch history). -/
theorem merge_row_filled (watch : List WatchRow) (u : UserRow) :
    (merge_row (watch_user_totals watch) u).map (fun p => (p.1, p.2.getD 0))
      = [(u, total_watch_minutes_of watch u.user_id)] := by
  unfold merge_row watch_user_totals
  rw [filter_keyed_map _ _ u.user_id (List.nodup_dedup _)]
  by_cases hm : u.user_id ∈ (watch.map (fun r => r.user_id)).dedup
  · rw [if_pos hm]
    simp [total_watch_minutes_of]
  · rw [if_neg hm]
    have hz : watch.filter (fun r => r.user_id = u.user_id) = [] := by
      rw [List.filter_eq_nil_iff]
      intro r hr hre
      rw [decide_eq_true_eq] at hre
      exact hm (List.mem_dedup.mpr (hre ▸ List.mem_map_of_mem _ hr))
    simp [total_watch_minutes_of, hz]

/-- C10: after the left join with the per-user totals and the zero fill,
the engagement table has exactly one row per row of the users table, in
order, carrying that user's total watch minutes; in particular a user with
no watch-history rows is kept with a total of exactly zero. -/
theorem user_engagement_rows (users : List UserRow) (watch : List WatchRow) :
    user_engagement users watch
        = users.map (fun u => (u, total_watch_minutes_of watch u.user_id))
    ∧ (user_engagement users watch).length = users.length
    ∧ ∀ u ∈ users, watch.filter (fun r => r.user_id = u.user_id) = [] →
        (u, (0 : ℚ)) ∈ user_engagement users watch := by
  have hmain : user_engagement users watch
      = users.map (fun u => (u, total_watch_minutes_of watch u.user_id)) := by
    unfold user_engagement merge_left_totals fill_total_zero
    induction users with
    | nil => rfl
    | cons u t ih =>
      rw [List.flatMap_cons, List.map_append, ih, merge_row_filled watch u,
        List.map_cons, List.singleton_append]
  refine ⟨hmain, by rw [hmain, List.length_map], ?_⟩
  intro u hu hz
  have h0 : total_watch_minutes_of watch u.user_id = 0 := by
    unfold total_watch_minutes_of
    rw [hz]
    rfl
  rw [hmain]
  have hmem := List.mem_map_of_mem (fun u => (u, total_watch_minutes_of watch u.user_id)) hu
  simpa only [h0] using hmem

/-- Witness for C10: in a concrete engagement table, the user with no
watch-history rows appears with a total of exactly zero. -/
theorem user_engagement_rows_witness :
    (u_churned, (0 : ℚ)) ∈ user_engagement [u_active, u_churned] [w_sample] :=
  (user_engagement_rows [u_active, u_churned] [w_sample]).2.2 u_churned
    (List.mem_cons_of_mem _ (List.mem_cons_self _ _)) (by rfl)

/-- Embedding of `pd.cut(monthly_spend, bins=[0, 5, 10, 15, 100], labels=...)`:
right-closed intervals, values outside `(0, 100]` get a missing bracket. -/
def spend_bracket (x : ℚ) : Option String :=
  if 0 < x ∧ x ≤ 5 then some "$0-5"
  else if 5 < x ∧ x ≤ 10 then some "$5-10"
  else if 10 < x ∧ x ≤ 15 then some "$10-15"
  else if 15 < x ∧ x ≤ 100 then some "$15+"
  else none

/-- Embedding of `user_engagement_clean = user_engagement.dropna(subset=["monthly_spend"])`. -/
def user_engagement_clean (users : List UserRow) (watch : List WatchRow) :
    List (UserRow × ℚ) :=
  (user_engagement users watch).filter (fun p => p.1.monthly_spend.isSome)

/-- The pair groupby key of the retention matrix: the engagement level of
the row's total watch minutes (`pd.qcut` labelling, abstracted as a
labelling function) paired with its spend bracket; missing when either
label is missing (such rows are dropped by the groupby). -/
def bracket_key (elabel : ℚ → Option String) (p : UserRow × ℚ) :
    Option (String × String) :=
  match elabel p.2, p.1.monthly_spend.bind spend_bracket with
  | some e, some b => some (e, b)
  | _, _ => none

/-- One group of the retention matrix. -/
def matrix_group (rows : List (UserRow × ℚ)) (elabel : ℚ → Option String)
    (k : String × String) : List (UserRow × ℚ) :=
  rows.filter (fun p => bracket_key elabel p = some k)

/-- The `("is_active", "sum")` aggregate of a retention-matrix group: the
number of active users in the group. -/
def matrix_active_count (rows : List (UserRow × ℚ)) (elabel : ℚ → Option String)
    (k : String × String) : ℕ :=
  ((matrix_group rows elabel k).filter (fun p => p.1.is_active = true)).length

/-- The `("is_active", "count")` aggregate of a retention-matrix group. -/
def matrix_total_count (rows : List (UserRow × ℚ)) (elabel : ℚ → Option String)
    (k : String × String) : ℕ :=
  (matrix_group rows elabel k).length

/-- Embedding of
`retention_matrix["retention_rate"] = (active_count / total_count * 100).round(1)`
(rounding to one decimal via `round(10 x) / 10`). -/
def matrix_retention_rate (rows : List (UserRow × ℚ)) (elabel : ℚ → Option String)
    (k : String × String) : ℚ :=
  ((round ((matrix_active_count rows elabel k : ℚ)
      / (matrix_total_count rows elabel k : ℚ) * 100 * 10) : ℤ) : ℚ) / 10

/-- Helper: a ratio of a count over a larger positive count lies in `[0,1]`. -/
theorem count_div_bounds (a b : ℕ) (hab : a ≤ b) (hb : 0 < b) :
    0 ≤ (a : ℚ) / (b : ℚ) ∧ (a : ℚ) / (b : ℚ) ≤ 1 := by
  constructor
  · positivity
  · rw [div_le_one (by exact_mod_cast hb)]
    exact_mod_cast hab

/-- Helper: rounding keeps a value of `[0, n]` inside `[0, n]` (as the
integer cast back to the rationals). -/
theorem round_cast_bounds (y : ℚ) (n : ℕ) (h0 : 0 ≤ y) (hn : y ≤ (n : ℚ)) :
    0 ≤ ((round y : ℤ) : ℚ) ∧ ((round y : ℤ) : ℚ) ≤ (n : ℚ) := by
  constructor
  · have h1 : (y - 1 / 2 : ℚ) < ((round y : ℤ) : ℚ) := by
      exact_mod_cast sub_half_lt_round y
    have h2 : ((-1 : ℤ) : ℚ) < ((round y : ℤ) : ℚ) := by push_cast; linarith
    have h3 : (-1 : ℤ) < round y := by exact_mod_cast h2
    have h4 : (0 : ℤ) ≤ round y := by omega
    exact_mod_cast h4
  · have h1 : ((round y : ℤ) : ℚ) ≤ y + 1 / 2 := round_le_add_half y
    have h2 : ((round y : ℤ) : ℚ) < ((n : ℤ) : ℚ) + 1 := by push_cast; linarith
    have h3 : (round y : ℤ) < (n : ℤ) + 1 := by exact_mod_cast h2
    have h4 : (round y : ℤ) ≤ (n : ℤ) := by omega
    exact_mod_cast h4

/-- C2: every reported rate is a bounded ratio: the per-plan retention rate
and the two click-through rates lie in `[0,1]`, and the retention rate of
every observed engagement-level and spend-bracket cell (computed as a
percentage, for any engagement labelling) lies in `[0,100]`. -/
theorem rates_within_bounds (users : List UserRow) (watch : List WatchRow)
    (recs : List RecRow) (elabel : ℚ → Option String) (p v t : String)
    (k : String × String)
    (hp : ∃ u ∈ users, u.subscription_plan = p)
    (hv : ∃ r ∈ recs, r.algorithm_version = v)
    (ht : ∃ r ∈ recs, r.recommendation_type = t)
    (hk : ∃ q ∈ user_engagement_clean users watch, bracket_key elabel q = some k) :
    (0 ≤ retention_rate users p ∧ retention_rate users p ≤ 1)
    ∧ (0 ≤ matrix_retention_rate (user_engagement_clean users watch) elabel k
        ∧ matrix_retention_rate (user_engagement_clean users watch) elabel k ≤ 100)
    ∧ (0 ≤ ctr_by_algo recs v ∧ ctr_by_algo recs v ≤ 1)
    ∧ (0 ≤ ctr_by_type recs t ∧ ctr_by_type recs t ≤ 1) := by
  refine ⟨?_, ?_, ?_, ?_⟩
  · rcases hp with ⟨u, hu, hup⟩
    have hmem : u ∈ users.filter (fun x => x.subscription_plan = p) :=
      List.mem_filter.mpr ⟨hu, by simp [hup]⟩
    have hsize : 0 < plan_size users p := List.length_pos_of_mem hmem
    have hTF := retention_split users p
    have hb := count_div_bounds (retention_true users p) (plan_size users p) (by omega) hsize
    have hcast : (retention_true users p : ℚ) + (retention_false users p : ℚ)
        = (plan_size users p : ℚ) := by
      rw [← hTF]; push_cast; ring
    unfold retention_rate
    rw [hcast]
    exact hb
  · rcases hk with ⟨q, hq, hqk⟩
    have hmem : q ∈ matrix_group (user_engagement_clean users watch) elabel k :=
      List.mem_filter.mpr ⟨hq, by simp [hqk]⟩
    have hN : 0 < matrix_total_count (user_engagement_clean users watch) elabel k :=
      List.length_pos_of_mem hmem
    have hA : matrix_active_count (user_engagement_clean users watch) elabel k
        ≤ matrix_total_count (user_engagement_clean users watch) elabel k :=
      List.length_filter_le _ _
    have hb := count_div_bounds _ _ hA hN
    have hy0 : (0 : ℚ) ≤ (matrix_active_count (user_engagement_clean users watch) elabel k : ℚ)
        / (matrix_total_count (user_engagement_clean users watch) elabel k : ℚ) * 100 * 10 := by
      nlinarith [hb.1]
    have hy1 : (matrix_active_count (user_engagement_clean users watch) elabel k : ℚ)
        / (matrix_total_count (user_engagement_clean users watch) elabel k : ℚ) * 100 * 10
        ≤ ((1000 : ℕ) : ℚ) := by
      push_cast
      nlinarith [hb.2]
    have hr := round_cast_bounds _ 1000 hy0 hy1
    unfold matrix_retention_rate
    constructor
    · have := hr.1
      linarith
    · have := hr.2
      push_cast at this
      linarith
  · rcases hv with ⟨r, hr, hrv⟩
    have hmem : r ∈ recs.filter (fun x => x.algorithm_version = v) :=
      List.mem_filter.mpr ⟨hr, by simp [hrv]⟩
    have hden : 0 < (recs.filter (fun x => x.algorithm_version = v)).length :=
      List.length_pos_of_mem hmem
    unfold ctr_by_algo
    exact count_div_bounds _ _ (List.length_filter_le _ _) hden
  · rcases ht with ⟨r, hr, hrt⟩
    have hmem : r ∈ recs.filter (fun x => x.recommendation_type = t) :=
      List.mem_filter.mpr ⟨hr, by simp [hrt]⟩
    have hden : 0 < impressions_by_type recs t := List.length_pos_of_mem hmem
    unfold ctr_by_type clicks_by_type
    exact count_div_bounds _ _ (List.length_filter_le _ _) hden

unseal Rat.add Rat.sub Rat.mul Rat.inv in
/-- Witness for C2: the bounds applied to a concrete dataset in which every
kind of rate is computed on a nonempty group. -/
theorem rates_within_bounds_witness :
    (0 ≤ retention_rate [u_active, u_churned] "Basic"
      ∧ retention_rate [u_active, u_churned] "Basic" ≤ 1)
    ∧ (0 ≤ matrix_retention_rate (user_engagement_clean [u_active, u_churned] [w_sample])
          (fun _ => some "Low") ("Low", "$0-5")
        ∧ matrix_retention_rate (user_engagement_clean [u_active, u_churned] [w_sample])
          (fun _ => some "Low") ("Low", "$0-5") ≤ 100)
    ∧ (0 ≤ ctr_by_algo [r_click, r_skip] "v1" ∧ ctr_by_algo [r_click, r_skip] "v1" ≤ 1)
    ∧ (0 ≤ ctr_by_type [r_click, r_skip] "new_release"
        ∧ ctr_by_type [r_click, r_skip] "new_release" ≤ 1) :=
  rates_within_bounds [u_active, u_churned] [w_sample] [r_click, r_skip]
    (fun _ => some "Low") "Basic" "v1" "new_release" ("Low", "$0-5")
    ⟨u_active, List.mem_cons_self _ _, rfl⟩
    ⟨r_click, List.mem_cons_self _ _, rfl⟩
    ⟨r_click, List.mem_cons_self _ _, rfl⟩
    (by decide)

/-- The Users KPI `users["user_id"].nunique()`. -/
def total_users (users : List UserRow) : ℕ :=
  ((users.map (fun u => u.user_id)).dedup).length

/-- The Active Subscriptions KPI `users[users.get("is_active") == True].shape[0]`. -/
def active_subs (users : List UserRow) : ℕ :=
  (users.filter (fun u => u.is_active = true)).length

/-- Helper: every joined genre row carries the duration of some watch row. -/
theorem watch_genre_rows_snd (watch : List WatchRow) (movies : List MovieRow) :
    ∀ p ∈ watch_genre_rows watch movies, ∃ w ∈ watch, p.2 = w.watch_duration_minutes := by
  intro p hp
  rcases List.mem_flatMap.mp hp with ⟨w, hw, hpw⟩
  by_cases hms : (movies.filter (fun m => m.movie_id = w.movie_id)).isEmpty
  · rw [if_pos hms] at hpw
    rcases List.mem_singleton.mp hpw with rfl
    exact ⟨w, hw, rfl⟩
  · rw [if_neg hms] at hpw
    rcases List.mem_map.mp hpw with ⟨m, _, rfl⟩
    exact ⟨w, hw, rfl⟩

/-- C7 (amended): provided every loaded watch duration is non-negative
(the zero fill guarantees this for missing and the source data carries no
negative durations, but the pipeline itself does not clamp parsed negative
values), the watch-hours KPI and the per-device and per-genre minute totals
are non-negative; the counts (distinct users, active subscriptions, users
per plan, impressions and clicks per recommendation type) are non-negative
unconditionally. -/
theorem aggregates_nonneg (users : List UserRow) (watch : List WatchRow)
    (movies : List MovieRow) (recs : List RecRow)
    (hdur : ∀ r ∈ watch, 0 ≤ r.watch_duration_minutes) :
    0 ≤ total_watch_hours watch
    ∧ (∀ d, 0 ≤ device_watch_sum watch d)
    ∧ (∀ g, 0 ≤ genre_watch_sum watch movies g)
    ∧ (0 : ℚ) ≤ (total_users users : ℚ)
    ∧ (0 : ℚ) ≤ (active_subs users : ℚ)
    ∧ (∀ p, (0 : ℚ) ≤ (plan_size users p : ℚ))
    ∧ (∀ t, (0 : ℚ) ≤ (impressions_by_type recs t : ℚ)
        ∧ (0 : ℚ) ≤ (clicks_by_type recs t : ℚ)) := by
  have htot : 0 ≤ total_watch_minutes watch := by
    unfold total_watch_minutes
    apply List.sum_nonneg
    intro x hx
    rcases List.mem_map.mp hx with ⟨r, hr, rfl⟩
    exact hdur r hr
  refine ⟨?_, ?_, ?_, by positivity, by positivity, fun p => by positivity,
    fun t => ⟨by positivity, by positivity⟩⟩
  · unfold total_watch_hours
    positivity
  · intro d
    unfold device_watch_sum
    apply List.sum_nonneg
    intro x hx
    rcases List.mem_map.mp hx with ⟨r, hr, rfl⟩
    exact hdur r (List.mem_of_mem_filter hr)
  · intro g
    unfold genre_watch_sum
    apply List.sum_nonneg
    intro x hx
    rcases List.mem_map.mp hx with ⟨p, hp, rfl⟩
    rcases watch_genre_rows_snd watch movies p (List.mem_of_mem_filter hp) with ⟨w, hw, hpw⟩
    rw [hpw]
    exact hdur w hw

/-- Witness for C7 (amended): the non-negativity bundle applied to a
concrete dataset whose durations are non-negative. -/
theorem aggregates_nonneg_witness :
    0 ≤ total_watch_hours [w_sample]
    ∧ (∀ d, 0 ≤ device_watch_sum [w_sample] d)
    ∧ (∀ g, 0 ≤ genre_watch_sum [w_sample] [m_sample] g)
    ∧ (0 : ℚ) ≤ (total_users [u_active] : ℚ)
    ∧ (0 : ℚ) ≤ (active_subs [u_active] : ℚ)
    ∧ (∀ p, (0 : ℚ) ≤ (plan_size [u_active] p : ℚ))
    ∧ (∀ t, (0 : ℚ) ≤ (impressions_by_type [r_click] t : ℚ)
        ∧ (0 : ℚ) ≤ (clicks_by_type [r_click] t : ℚ)) :=
  aggregates_nonneg [u_active] [w_sample] [m_sample] [r_click]
    (fun r hr => by
      rcases List.mem_singleton.mp hr with rfl
      norm_num [w_sample])

/-- A raw watch row whose duration cell parses to a negative number. -/
def raw_watch_neg : RawWatchRow :=
  { user_id := "u1", movie_id := "m1", watch_date := "2024-02-01",
    watch_duration_minutes := RawCell.val "-60",
    progress_percentage := RawCell.missing, device_type := "TV",
    user_rating := none }

unseal Rat.add Rat.sub Rat.mul Rat.inv in
/-- Counterexample to C7 as stated: on a loadable input whose duration cell
reads `-60`, the total-watch-hours KPI is negative, so not every
aggregation output of minutes is non-negative on every input dataset. -/
theorem total_watch_hours_neg_counterexample :
    total_watch_hours
      (load_data { users := [], watch := [raw_watch_neg], movies := [], recs := [] }).watch
      < 0 := by decide

/-- A raw watch row with malformed numeric cells. -/
def raw_watch_bad : RawWatchRow :=
  { user_id := "u1", movie_id := "m1", watch_date := "2024-02-01",
    watch_duration_minutes := RawCell.val "abc",
    progress_percentage := RawCell.val "oops", device_type := "TV",
    user_rating := none }

/-- A raw user row with a malformed spend cell and a missing age cell. -/
def raw_user_bad : RawUserRow :=
  { user_id := "u1", subscription_plan := "Basic",
    monthly_spend := RawCell.val "abc", is_active := true, country := "US",
    primary_device := "TV", household_size := some 2,
    age := RawCell.missing, created_at := "2024-01-01",
    subscription_start_date := "2024-01-02" }

/-- C5: ingestion is total on arbitrary cell contents and coerces
leniently: the loaded duration is the parsed value with missing filled by
zero (in particular zero whenever the cell is missing or non-parseable),
while progress, spend and age keep the lenient parse (missing on failure,
so missing spend and age stay missing). -/
theorem load_data_lenient (r : RawWatchRow) (u : RawUserRow) :
    ((load_watch_row r).watch_duration_minutes
        = (to_numeric_coerce r.watch_duration_minutes).getD 0)
    ∧ (to_numeric_coerce r.watch_duration_minutes = none →
        (load_watch_row r).watch_duration_minutes = 0)
    ∧ ((load_watch_row r).progress_percentage = to_numeric_coerce r.progress_percentage)
    ∧ ((load_user_row u).monthly_spend = to_numeric_coerce u.monthly_spend)
    ∧ ((load_user_row u).age = to_numeric_coerce u.age)
    ∧ (to_numeric_coerce RawCell.missing = none)
    ∧ (∀ s : String, parseRat s = none → to_numeric_coerce (RawCell.val s) = none) := by
  refine ⟨rfl, ?_, rfl, rfl, rfl, rfl, ?_⟩
  · intro h
    unfold load_watch_row
    rw [h]
    rfl
  · intro s h
    unfold to_numeric_coerce
    exact h

/-- Witness for C5: a malformed duration cell loads as zero and a malformed
spend cell loads as missing on concrete raw rows. -/
theorem load_data_lenient_witness :
    (load_watch_row raw_watch_bad).watch_duration_minutes = 0
    ∧ (load_user_row raw_user_bad).monthly_spend = none
    ∧ to_numeric_coerce (RawCell.val "abc") = none :=
  ⟨(load_data_lenient raw_watch_bad raw_user_bad).2.1 (by decide),
   by
    rw [(load_data_lenient raw_watch_bad raw_user_bad).2.2.2.1]
    decide,
   (load_data_lenient raw_watch_bad raw_user_bad).2.2.2.2.2.2 "abc" (by decide)⟩

/-- What a dashboard section renders: a chart, or an informational
message. -/
inductive SectionOut where
  | chart : SectionOut
  | info : SectionOut
deriving DecidableEq

/-- Embedding of `watch_rated = watch.dropna(subset=["user_rating"])`. -/
def watch_rated (watch : List WatchRow) : List WatchRow :=
  watch.filter (fun r => r.user_rating.isSome)

/-- The Satisfaction-by-Device section: chart when `watch_rated` is
nonempty, informational message otherwise. -/
def sat_by_device_section (watch : List WatchRow) : SectionOut :=
  if watch_rated watch = [] then SectionOut.info else SectionOut.chart

/-- The Satisfaction-by-Plan section (guarded by the same
`watch_rated.empty` check). -/
def sat_by_plan_section (watch : List WatchRow) : SectionOut :=
  if watch_rated watch = [] then SectionOut.info else SectionOut.chart

/-- The Satisfaction-by-Genre section (guarded by the same
`watch_rated.empty` check). -/
def sat_by_genre_section (watch : List WatchRow) : SectionOut :=
  if watch_rated watch = [] then SectionOut.info else SectionOut.chart

/-- The CTR-by-Type section: chart when the recommendation log is nonempty,
informational message otherwise. -/
def ctr_by_type_section (recs : List RecRow) : SectionOut :=
  if recs = [] then SectionOut.info else SectionOut.chart

/-- C8: when every user rating is missing, each satisfaction section shows
the informational message and no chart, and when the recommendation log is
empty the CTR-by-type section does the same. -/
theorem empty_sections_show_info (watch : List WatchRow) (recs : List RecRow)
    (hw : ∀ r ∈ watch, r.user_rating = none) (hr : recs = []) :
    sat_by_device_section watch = SectionOut.info
    ∧ sat_by_plan_section watch = SectionOut.info
    ∧ sat_by_genre_section watch = SectionOut.info
    ∧ ctr_by_type_section recs = SectionOut.info
    ∧ sat_by_device_section watch ≠ SectionOut.chart
    ∧ sat_by_plan_section watch ≠ SectionOut.chart
    ∧ sat_by_genre_section watch ≠ SectionOut.chart
    ∧ ctr_by_type_section recs ≠ SectionOut.chart := by
  have hwr : watch_rated watch = [] := by
    rw [watch_rated, List.filter_eq_nil_iff]
    intro r hrw
    simp [hw r hrw]
  refine ⟨?_, ?_, ?_, ?_, ?_, ?_, ?_, ?_⟩ <;>
    simp [sat_by_device_section, sat_by_plan_section, sat_by_genre_section,
      ctr_by_type_section, hwr, hr]

/-- A sample watch row with no user rating, used by concrete witnesses. -/
def w_norating : WatchRow :=
  { user_id := "u1", movie_id := "m1", watch_date := "2024-02-01",
    watch_duration_minutes := 30, progress_percentage := some 50,
    device_type := "TV", user_rating := none }

/-- Witness for C8: on a concrete fully-unrated watch table and an empty
log, all four guarded sections show the informational message. -/
theorem empty_sections_show_info_witness :
    sat_by_device_section [w_norating] = SectionOut.info
    ∧ sat_by_plan_section [w_norating] = SectionOut.info
    ∧ sat_by_genre_section [w_norating] = SectionOut.info
    ∧ ctr_by_type_section [] = SectionOut.info
    ∧ sat_by_device_section [w_norating] ≠ SectionOut.chart
    ∧ sat_by_plan_section [w_norating] ≠ SectionOut.chart
    ∧ sat_by_genre_section [w_norating] ≠ SectionOut.chart
    ∧ ctr_by_type_section [] ≠ SectionOut.chart :=
  empty_sections_show_info [w_norating] []
    (fun r hr => by rcases List.mem_singleton.mp hr with rfl; rfl) rfl

/-- The in-memory state of the app around `load_data`: the raw CSV contents
on disk, and the parameterless result cache installed by the caching
decorator. -/
structure AppState where
  raw : RawData
  cache : Option Tables
deriving DecidableEq

/-- Embedding of the cached `load_data` call: return the cached tables if
present, otherwise compute them from the raw data and install them in the
cache; the raw data is only read, never written. -/
def load_data_cached (s : AppState) : Tables × AppState :=
  match s.cache with
  | some t => (t, s)
  | none => (load_data s.raw, { raw := s.raw, cache := some (load_data s.raw) })

/-- C9: ingestion is deterministic and effect-free on its inputs: for fixed
raw CSV contents, a first and a second invocation of the cached `load_data`
return the same tables as the pure `load_data` of those contents, and
neither invocation changes the raw data. -/
theorem load_data_cached_pure (raw : RawData) :
    (load_data_cached { raw := raw, cache := none }).1 = load_data raw
    ∧ (load_data_cached (load_data_cached { raw := raw, cache := none }).2).1
        = (load_data_cached { raw := raw, cache := none }).1
    ∧ ((load_data_cached { raw := raw, cache := none }).2).raw = raw
    ∧ ((load_data_cached (load_data_cached { raw := raw, cache := none }).2).2).raw = raw :=
  ⟨rfl, rfl, rfl, rfl⟩
